import Mathlib

/-!
Verification development for the anonymous-messaging bot (src/bot.py,
src/db.py, src/config.py).

Part 1: the Identity Codec.  `encode_user_id` in src/bot.py is
`base64.urlsafe_b64encode(str(user_id).encode("utf-8")).decode("utf-8")`
and `decode_user_id` is
`int(base64.urlsafe_b64decode(encoded_id.encode("utf-8")).decode("utf-8"))`,
each wrapped in a try/except that turns every failure into `None`.
We embed the byte-level behaviour of CPython's `urlsafe_b64encode`,
`urlsafe_b64decode` (binascii.a2b_base64 in its default non-strict mode:
characters outside the alphabet are skipped, a pad that completes a quad
stops the scan, a dangling quad is an error) and `int()` on ASCII payloads
(whitespace strip, optional sign, decimal digits with single interior
underscores).  Identities are Python ints, modelled as `Int`; the decimal
rendering `str(x)` is modelled by `pyStr`.  Non-ASCII payload bytes make
the model return `none` where Python could in rare cases still parse a
Unicode numeral; no claim below depends on such payloads, and every token
appearing in a claim is ASCII.
-/

namespace AnonBot

/-- Value of one base64 character under the urlsafe decode table.
CPython translates the altchars `-` and `_` to `+` and `/` before the
table lookup, so both the standard and the urlsafe pair are accepted. -/
def b64val (c : Char) : Option Nat :=
  let n := c.toNat
  if 65 ≤ n ∧ n ≤ 90 then some (n - 65)
  else if 97 ≤ n ∧ n ≤ 122 then some (n - 97 + 26)
  else if 48 ≤ n ∧ n ≤ 57 then some (n - 48 + 52)
  else if n = 43 ∨ n = 45 then some 62
  else if n = 47 ∨ n = 95 then some 63
  else none

/-- Character `i` of the urlsafe base64 alphabet (A-Z, a-z, 0-9, -, _). -/
def b64chr (i : Nat) : Char :=
  if i < 26 then Char.ofNat (65 + i)
  else if i < 52 then Char.ofNat (97 + (i - 26))
  else if i < 62 then Char.ofNat (48 + (i - 52))
  else if i = 62 then '-'
  else '_'

/-- Base64 encoding of a byte list, three bytes to four characters, with
`=` padding, exactly as `binascii.b2a_base64` groups them. -/
def b64EncChunks : List Nat → List Char
  | [] => []
  | [b0] => [b64chr (b0 / 4), b64chr (b0 % 4 * 16), '=', '=']
  | [b0, b1] => [b64chr (b0 / 4), b64chr (b0 % 4 * 16 + b1 / 16), b64chr (b1 % 16 * 4), '=']
  | b0 :: b1 :: b2 :: rest =>
      b64chr (b0 / 4) :: b64chr (b0 % 4 * 16 + b1 / 16) ::
      b64chr (b1 % 16 * 4 + b2 / 64) :: b64chr (b2 % 64) :: b64EncChunks rest

/-- The scanning loop of CPython `binascii.a2b_base64`, non-strict mode:
state is the position in the current quad (0..3), the pending bits of the
last data character, and the run of pads since the last data character.
A character outside the table is skipped; a pad that completes a quad
(two pads from position 2, one pad from position 3) ends the scan; input
ending inside a quad is an error (`None`). -/
def a2bLoop : List Char → Nat → Nat → Nat → Option (List Nat)
  | [], q, _, _ => if q = 0 then some [] else none
  | c :: rest, q, left, pads =>
    if c = '=' then
      if 2 ≤ q then
        if 4 ≤ q + pads + 1 then some []
        else a2bLoop rest q left (pads + 1)
      else a2bLoop rest q left pads
    else
      match b64val c with
      | none => a2bLoop rest q left pads
      | some v =>
        if q = 0 then a2bLoop rest 1 v 0
        else if q = 1 then (a2bLoop rest 2 (v % 16) 0).map (fun bs => (left * 4 + v / 16) :: bs)
        else if q = 2 then (a2bLoop rest 3 (v % 4) 0).map (fun bs => (left * 16 + v / 4) :: bs)
        else (a2bLoop rest 0 0 0).map (fun bs => (left * 64 + v) :: bs)

/-- CPython `base64.urlsafe_b64decode` on the characters of a token.
The scan works byte by byte in CPython; every multi-byte UTF-8 character
consists of bytes outside the table and is skipped there, as the whole
character is here. -/
def urlsafeB64decode (cs : List Char) : Option (List Nat) :=
  a2bLoop cs 0 0 0

/-- Decimal digit bytes, most significant first, with enough fuel: the
recursion divides by 10 each step, so any fuel with `n < 10 ^ fuel`
computes all digits.  Fuel keeps the recursion structural so that the
kernel can evaluate concrete tokens. -/
def decDigitsAux : Nat → Nat → List Nat
  | 0, _ => []
  | fuel + 1, n =>
    if n < 10 then [48 + n]
    else decDigitsAux fuel (n / 10) ++ [48 + n % 10]

/-- Decimal digit bytes of a natural number, most significant first:
the UTF-8 bytes of Python `str(n)` for `n ≥ 0`. -/
def decDigits (n : Nat) : List Nat := decDigitsAux (n + 1) n

/-- UTF-8 bytes of Python `str(x)` for an int `x`: an optional minus sign
(byte 45) followed by the decimal digits of the absolute value. -/
def pyStr (x : Int) : List Nat :=
  if x < 0 then 45 :: decDigits x.natAbs else decDigits x.natAbs

/-- One step of decimal accumulation, `acc * 10 + digit` for byte `b`. -/
def digitStep (acc b : Nat) : Nat := acc * 10 + (b - 48)

/-- Digits (and single interior underscores, as Python `int()` allows
since 3.6) after the first digit of a numeral. -/
def digitsCore : List Nat → Nat → Option Nat
  | [], acc => some acc
  | b :: rest, acc =>
    if 48 ≤ b ∧ b ≤ 57 then digitsCore rest (digitStep acc b)
    else if b = 95 then
      match rest with
      | [] => none
      | c :: r => if 48 ≤ c ∧ c ≤ 57 then digitsCore r (digitStep acc c) else none
    else none

/-- An unsigned decimal numeral: a digit, then `digitsCore`. -/
def parseUnsigned : List Nat → Option Nat
  | [] => none
  | b :: rest => if 48 ≤ b ∧ b ≤ 57 then digitsCore rest (b - 48) else none

/-- ASCII whitespace bytes, which Python `int()` strips at both ends. -/
def isSpaceByte (b : Nat) : Bool :=
  b = 32 || b = 9 || b = 10 || b = 13 || b = 12 || b = 11

/-- Strip ASCII whitespace from both ends of a byte list. -/
def stripSpaces (bs : List Nat) : List Nat :=
  ((bs.dropWhile isSpaceByte).reverse.dropWhile isSpaceByte).reverse

/-- Python `int()` on the UTF-8 bytes of the decoded payload: strip
whitespace, optional sign, decimal digits with single interior
underscores.  Payload bytes outside ASCII yield `none` here (Python
first UTF-8-decodes and could accept a non-ASCII Unicode numeral; no
token in any claim produces such a payload). -/
def pyIntParse (bs : List Nat) : Option Int :=
  match stripSpaces bs with
  | [] => none
  | b :: rest =>
    if b = 43 then (parseUnsigned rest).map (fun n => (n : Int))
    else if b = 45 then (parseUnsigned rest).map (fun n => -(n : Int))
    else (parseUnsigned (b :: rest)).map (fun n => (n : Int))

/-- Model of `encode_user_id` (src/bot.py lines 30-40):
`base64.urlsafe_b64encode(str(user_id).encode("utf-8")).decode("utf-8")`.
Encoding never fails on an int, so the `except` branch is dead and the
function is total. -/
def encode_user_id (user_id : Int) : String :=
  String.mk (b64EncChunks (pyStr user_id))

/-- Model of `decode_user_id` (src/bot.py lines 42-52):
`int(base64.urlsafe_b64decode(encoded_id.encode("utf-8")).decode("utf-8"))`
with the surrounding try/except returning `None` on any failure (base64
error, UTF-8 error or int() error — the latter two are both folded into
`pyIntParse` returning `none`). -/
def decode_user_id (encoded_id : String) : Option Int :=
  (urlsafeB64decode encoded_id.data).bind pyIntParse

/-!
Part 2: the persistence layer (src/db.py) and the relay handlers
(src/bot.py `start`, `handle_message`, `handle_photo`).

The sqlite store is modelled by `Db`; rows not read by any handler under
verification (last_active, usernames, total message counters, the
user_analytics rows, reports, ratings, read flags) are omitted: they are
written in the same transactions but never consulted by the routing or
policy code.  Timestamps are seconds as `Nat`; `datetime("now", "-H
hours")` becomes the comparison `now ≤ ts + H * 3600`.  One relay
attempt is one handler call; the two failure points that in Python are
exceptions — the sqlite write inside `add_message` and the outbound
`bot.send_message`/`send_photo` — are passed in as the booleans
`dbError` and `deliverOk`, since the handler's control flow branches on
exactly those two events.  Per-sender `context.user_data` is `Session`;
`user_data.clear()` is `Session.idle`.
-/

/-- Message type column: src/db.py stores the strings `text` and `photo`. -/
inductive MsgType
  | text
  | photo
deriving DecidableEq

/-- One row of the `messages` table as far as the handlers read it. -/
structure Msg where
  from_user : Int
  to_user : Int
  content : String
  mtype : MsgType
  ts : Nat
deriving DecidableEq

/-- The sqlite store: `users`, `blocked_users`, the admin block flag on
users, the `allow_media` setting (default on, so only the off-list is
kept) and `messages`. -/
structure Db where
  users : List Int
  blocks : List (Int × Int)
  admin_blocked : List Int
  media_off : List Int
  messages : List Msg
deriving DecidableEq

/-- Model of `user_exists` (src/db.py lines 230-243). -/
def user_exists (db : Db) (uid : Int) : Bool := db.users.contains uid

/-- Model of `is_blocked` (src/db.py lines 328-343): a row of
`blocked_users` with this blocker and blocked pair. -/
def is_blocked (db : Db) (blocker_id blocked_id : Int) : Bool :=
  db.blocks.contains (blocker_id, blocked_id)

/-- Model of `is_user_blocked_by_admin` (src/db.py lines 245-258). -/
def is_user_blocked_by_admin (db : Db) (uid : Int) : Bool :=
  db.admin_blocked.contains uid

/-- Model of the `allow_media` field of `get_user_settings` (src/db.py
lines 600-629): the schema default and the missing-row default are both
true. -/
def allow_media (db : Db) (uid : Int) : Bool := !(db.media_off.contains uid)

/-- Model of `get_rate_limit_count` (src/db.py lines 656-672): messages
from this sender with `timestamp >= datetime("now", "-hours hours")`. -/
def get_rate_limit_count (db : Db) (uid : Int) (now hours : Nat) : Nat :=
  (db.messages.filter
    (fun m => decide (m.from_user = uid) && decide (now ≤ m.ts + hours * 3600))).length

/-- Model of `add_user` (src/db.py lines 176-212) restricted to what the
handlers read: the row exists afterwards (the upsert's non-key fields
are not consulted anywhere under verification). -/
def add_user (db : Db) (uid : Int) : Db :=
  if db.users.contains uid then db else { db with users := db.users ++ [uid] }

/-- Model of `add_message` (src/db.py lines 345-389).  All statements run
in one transaction; the except branch rolls back and returns normally,
so a raising sqlite write (`dbError`) leaves the store unchanged and the
caller never sees the failure.  The counter and analytics updates of the
same transaction are omitted: no handler reads them. -/
def add_message (db : Db) (from_user to_user : Int) (content : String)
    (mtype : MsgType) (now : Nat) (dbError : Bool) : Db :=
  if dbError then db
  else { db with messages := db.messages ++ [⟨from_user, to_user, content, mtype, now⟩] }

/-- Per-sender `context.user_data`: the three keys the handlers use. -/
structure Session where
  is_anonymous : Bool := false
  target_user_id : Option Int := none
  replying_to : Option Int := none
deriving DecidableEq

/-- Model of `context.user_data.clear()`. -/
def Session.idle : Session := {}

/-- Python truthiness of `user_data.get(key)` for an int-valued key:
a missing key and the int 0 are both falsy. -/
def truthyId : Option Int → Option Int
  | none => none
  | some t => if t = 0 then none else some t

/-- Feature flag from src/config.py line 16. -/
def ENABLE_MEDIA_MESSAGES : Bool := true

/-- Feature flag from src/config.py line 18. -/
def ENABLE_SPAM_PROTECTION : Bool := true

/-- Rate limit from src/config.py line 23. -/
def MAX_MESSAGES_PER_HOUR : Nat := 10

/-- The user-visible replies a handler can emit, one constructor per
distinct `reply_text` site reached by the modelled control flow. -/
inductive Reply
  | accountBlocked
  | invalidLink
  | cannotSendBlocked
  | promptMessage
  | userNotActive
  | welcomeLink
  | rateLimited
  | messageSent
  | deliveryFailed
  | replySent
  | replyFailed
  | showLink
  | mediaDisabled
  | targetNoMedia
  | photoSent
  | photoFailed
  | photoHowTo
deriving DecidableEq

/-- An outbound effect: a reply to the sender, or a relayed message (or
photo) to a recipient. -/
inductive Action
  | toSender (r : Reply)
  | toRecipient (uid : Int) (content : String) (mtype : MsgType)
deriving DecidableEq

/-- Model of the `start` handler (src/bot.py lines 54-169) on the state
it touches.  Control flow in source order: admin block on the sender,
`add_user`, then with a start parameter: decode, block check with
blocker = decoded target and blocked = sender, then target existence;
without a parameter the welcome message with the sender's own link.
The `get_user_settings` read for the media hint only changes the prompt
text, and the generated link text is not part of the state. -/
def start (db : Db) (session : Session) (sender : Int) (args : Option String) :
    Db × Session × List Action :=
  if is_user_blocked_by_admin db sender then
    (db, session, [.toSender .accountBlocked])
  else
    let db2 := add_user db sender
    match args with
    | some tok =>
      match decode_user_id tok with
      | none => (db2, session, [.toSender .invalidLink])
      | some target =>
        if is_blocked db2 target sender then
          (db2, session, [.toSender .cannotSendBlocked])
        else if user_exists db2 target then
          (db2, { session with is_anonymous := true, target_user_id := some target },
           [.toSender .promptMessage])
        else (db2, session, [.toSender .userNotActive])
    | none => (db2, session, [.toSender .welcomeLink])

/-- Model of the `handle_message` handler (src/bot.py lines 335-476).
Control flow in source order: admin block; anonymous mode (rate check
when spam protection is on, `add_message`, outbound send, confirmation,
`user_data.clear()` on every terminating outcome); reply mode (same
shape); otherwise the show-your-link reply.  The message-id lookup and
the inline keyboards only shape button payloads and are not modelled.
`dbError` is a raising sqlite write inside `add_message` (swallowed
there); `deliverOk` is the outbound send not raising. -/
def handle_message (db : Db) (session : Session) (sender : Int) (text : String)
    (now : Nat) (dbError deliverOk : Bool) : Db × Session × List Action :=
  if is_user_blocked_by_admin db sender then
    (db, session, [.toSender .accountBlocked])
  else if session.is_anonymous then
    match truthyId session.target_user_id with
    | some target =>
      if ENABLE_SPAM_PROTECTION &&
          decide (MAX_MESSAGES_PER_HOUR ≤ get_rate_limit_count db sender now 1) then
        (db, Session.idle, [.toSender .rateLimited])
      else
        let db2 := add_message db sender target text .text now dbError
        if deliverOk then
          (db2, Session.idle, [.toRecipient target text .text, .toSender .messageSent])
        else
          (db2, Session.idle, [.toSender .deliveryFailed])
    | none => (db, session, [])
  else
    match truthyId session.replying_to with
    | some target =>
      if ENABLE_SPAM_PROTECTION &&
          decide (MAX_MESSAGES_PER_HOUR ≤ get_rate_limit_count db sender now 1) then
        (db, Session.idle, [.toSender .rateLimited])
      else
        let db2 := add_message db sender target text .text now dbError
        if deliverOk then
          (db2, Session.idle, [.toRecipient target text .text, .toSender .replySent])
        else
          (db2, Session.idle, [.toSender .replyFailed])
    | none => (db, session, [.toSender .showLink])

/-- Model of the `handle_photo` handler (src/bot.py lines 478-536).
Control flow in source order: the media feature flag, anonymous mode,
the target's `allow_media` setting (no rate check, no admin block check,
no block-relation check on this path), `add_message` with a `[Photo]`
caption record, outbound photo, `user_data.clear()` on both outcomes. -/
def handle_photo (db : Db) (session : Session) (sender : Int) (caption : String)
    (now : Nat) (dbError deliverOk : Bool) : Db × Session × List Action :=
  if !ENABLE_MEDIA_MESSAGES then (db, session, [.toSender .mediaDisabled])
  else if session.is_anonymous then
    match truthyId session.target_user_id with
    | some target =>
      if !(allow_media db target) then (db, session, [.toSender .targetNoMedia])
      else
        let db2 := add_message db sender target ("[Photo] " ++ caption) .photo now dbError
        if deliverOk then
          (db2, Session.idle, [.toRecipient target caption .photo, .toSender .photoSent])
        else
          (db2, Session.idle, [.toSender .photoFailed])
    | none => (db, session, [])
  else (db, session, [.toSender .photoHowTo])

/-- Membership in the urlsafe base64 alphabet (A-Z, a-z, 0-9, -, _),
the characters that need no escaping in a URL query value. -/
def isUrlSafeChar (c : Char) : Bool :=
  (65 ≤ c.toNat && c.toNat ≤ 90) || (97 ≤ c.toNat && c.toNat ≤ 122) ||
  (48 ≤ c.toNat && c.toNat ≤ 57) || c = '-' || c = '_'

/-- Decode table inverts the alphabet. -/
theorem b64val_b64chr : ∀ v : Nat, v < 64 → b64val (b64chr v) = some v := by decide

/-- Alphabet characters are never the pad character. -/
theorem b64chr_ne_pad : ∀ v : Nat, v < 64 → b64chr v ≠ '=' := by decide

/-- Decoding inverts encoding on byte lists (bytes below 256). -/
theorem a2bLoop_encChunks (bs : List Nat) (h : ∀ b ∈ bs, b < 256) :
    a2bLoop (b64EncChunks bs) 0 0 0 = some bs := by
  induction bs using b64EncChunks.induct with
  | case1 => rfl
  | case2 b0 =>
    have hb0 : b0 < 256 := h b0 (by simp)
    have h1 : b0 / 4 < 64 := by omega
    have h2 : b0 % 4 * 16 < 64 := by omega
    simp [b64EncChunks, a2bLoop, b64chr_ne_pad _ h1, b64chr_ne_pad _ h2,
      b64val_b64chr _ h1, b64val_b64chr _ h2]
    omega
  | case3 b0 b1 =>
    have hb0 : b0 < 256 := h b0 (by simp)
    have hb1 : b1 < 256 := h b1 (by simp)
    have h1 : b0 / 4 < 64 := by omega
    have h2 : b0 % 4 * 16 + b1 / 16 < 64 := by omega
    have h3 : b1 % 16 * 4 < 64 := by omega
    simp [b64EncChunks, a2bLoop, b64chr_ne_pad _ h1, b64chr_ne_pad _ h2,
      b64chr_ne_pad _ h3, b64val_b64chr _ h1, b64val_b64chr _ h2, b64val_b64chr _ h3]
    constructor <;> omega
  | case4 b0 b1 b2 rest ih =>
    have hb0 : b0 < 256 := h b0 (by simp)
    have hb1 : b1 < 256 := h b1 (by simp)
    have hb2 : b2 < 256 := h b2 (by simp)
    have h1 : b0 / 4 < 64 := by omega
    have h2 : b0 % 4 * 16 + b1 / 16 < 64 := by omega
    have h3 : b1 % 16 * 4 + b2 / 64 < 64 := by omega
    have h4 : b2 % 64 < 64 := by omega
    have ih' := ih (fun b hb => h b (by simp [hb]))
    simp [b64EncChunks, a2bLoop, b64chr_ne_pad _ h1, b64chr_ne_pad _ h2,
      b64chr_ne_pad _ h3, b64chr_ne_pad _ h4, b64val_b64chr _ h1, b64val_b64chr _ h2,
      b64val_b64chr _ h3, b64val_b64chr _ h4, ih']
    refine ⟨by omega, by omega, by omega⟩

/-- Any natural is below `10 ^ (n + 1)`, so the default fuel suffices. -/
theorem lt_ten_pow (n : Nat) : n < 10 ^ (n + 1) := by
  calc n < 10 ^ n := Nat.lt_pow_self (by omega) n
  _ ≤ 10 ^ (n + 1) := Nat.pow_le_pow_right (by omega) (by omega)

/-- Every byte of a decimal rendering is an ASCII digit. -/
theorem decDigitsAux_digit :
    ∀ fuel n, n < 10 ^ fuel → ∀ b ∈ decDigitsAux fuel n, 48 ≤ b ∧ b ≤ 57 := by
  intro fuel
  induction fuel with
  | zero => intro n h b hb; simp [decDigitsAux] at hb
  | succ fuel ih =>
    intro n h b hb
    rw [decDigitsAux] at hb
    split at hb
    · simp at hb; omega
    · rcases List.mem_append.mp hb with h1 | h2
      · exact ih (n / 10) (by rw [pow_succ] at h; omega) b h1
      · simp at h2; omega

/-- Every byte of a decimal rendering is an ASCII digit. -/
theorem decDigits_digit (n : Nat) : ∀ b ∈ decDigits n, 48 ≤ b ∧ b ≤ 57 :=
  decDigitsAux_digit (n + 1) n (lt_ten_pow n)

/-- A decimal rendering is never empty. -/
theorem decDigits_ne_nil (n : Nat) : decDigits n ≠ [] := by
  rw [decDigits, decDigitsAux]
  split
  · simp
  · simp

/-- Folding the decimal accumulator over the rendering of `n` starting
from `acc` gives `acc` shifted past the rendering, plus `n`. -/
theorem decDigitsAux_foldl :
    ∀ fuel n, n < 10 ^ fuel → ∀ acc : Nat,
      (decDigitsAux fuel n).foldl digitStep acc =
        acc * 10 ^ (decDigitsAux fuel n).length + n := by
  intro fuel
  induction fuel with
  | zero => intro n h acc; simp [decDigitsAux] at h ⊢; omega
  | succ fuel ih =>
    intro n h acc
    rw [decDigitsAux]
    split
    · simp only [List.foldl_cons, List.foldl_nil, List.length_cons, List.length_nil,
        zero_add, pow_one, digitStep]
      omega
    · have hsub : n / 10 < 10 ^ fuel := by rw [pow_succ] at h; omega
      rw [List.foldl_append, ih (n / 10) hsub acc]
      simp only [List.foldl_cons, List.foldl_nil, digitStep, List.length_append,
        List.length_cons, List.length_nil, zero_add, pow_succ]
      rw [← mul_assoc]
      generalize acc * 10 ^ (decDigitsAux fuel (n / 10)).length = t
      omega

/-- Folding the decimal accumulator over the rendering of `n`. -/
theorem decDigits_foldl (n : Nat) :
    ∀ acc : Nat, (decDigits n).foldl digitStep acc =
      acc * 10 ^ (decDigits n).length + n :=
  decDigitsAux_foldl (n + 1) n (lt_ten_pow n)

/-- digitsCore on a pure digit list is the decimal fold. -/
theorem digitsCore_digits (l : List Nat) :
    ∀ acc : Nat, (∀ b ∈ l, 48 ≤ b ∧ b ≤ 57) →
      digitsCore l acc = some (l.foldl digitStep acc) := by
  induction l with
  | nil => intro acc _; rfl
  | cons b rest ih =>
    intro acc h
    have hb := h b (by simp)
    rw [digitsCore.eq_def]
    simp only [if_pos hb]
    rw [ih _ (fun x hx => h x (by simp [hx]))]
    rfl

/-- dropWhile keeps a list none of whose elements satisfy the test. -/
theorem dropWhile_of_none {p : Nat → Bool} (l : List Nat)
    (h : ∀ b ∈ l, p b = false) : l.dropWhile p = l := by
  cases l with
  | nil => rfl
  | cons b rest => rw [List.dropWhile_cons, h b (by simp)]; simp

/-- stripSpaces keeps a list with no whitespace byte. -/
theorem stripSpaces_of_none (l : List Nat)
    (h : ∀ b ∈ l, isSpaceByte b = false) : stripSpaces l = l := by
  unfold stripSpaces
  rw [dropWhile_of_none l h, dropWhile_of_none l.reverse (fun b hb => h b (List.mem_reverse.mp hb))]
  exact List.reverse_reverse l

/-- Digit bytes are not whitespace. -/
theorem digit_not_space (b : Nat) (h : 48 ≤ b ∧ b ≤ 57) : isSpaceByte b = false := by
  simp [isSpaceByte]
  omega

/-- parseUnsigned parses a decimal rendering back to its value. -/
theorem parseUnsigned_decDigits (n : Nat) : parseUnsigned (decDigits n) = some n := by
  obtain ⟨b, rest, hbr⟩ : ∃ b rest, decDigits n = b :: rest := by
    cases h : decDigits n with
    | nil => exact absurd h (decDigits_ne_nil n)
    | cons b rest => exact ⟨b, rest, rfl⟩
  have hd := decDigits_digit n
  rw [hbr] at hd
  have hb := hd b (by simp)
  rw [hbr, parseUnsigned, if_pos hb,
    digitsCore_digits rest (b - 48) (fun x hx => hd x (by simp [hx]))]
  have := decDigits_foldl n 0
  rw [hbr] at this
  simp only [List.foldl_cons, digitStep, Nat.zero_mul, zero_mul, zero_add,
    Nat.zero_add] at this
  rw [this]

/-- Python int() on a nonempty pure digit list takes the unsigned branch. -/
theorem pyIntParse_digits (l : List Nat) (hne : l ≠ [])
    (hd : ∀ b ∈ l, 48 ≤ b ∧ b ≤ 57) :
    pyIntParse l = (parseUnsigned l).map (fun n => (n : Int)) := by
  obtain ⟨b, rest, rfl⟩ := List.exists_cons_of_ne_nil hne
  have hb := hd b (by simp)
  have hstrip : stripSpaces (b :: rest) = b :: rest :=
    stripSpaces_of_none _ (fun x hx => digit_not_space x (hd x hx))
  rw [pyIntParse, hstrip]
  simp only [if_neg (show ¬b = 43 by omega), if_neg (show ¬b = 45 by omega)]

/-- Python int() applied to the rendering of a nonnegative value. -/
theorem pyIntParse_decDigits (n : Nat) : pyIntParse (decDigits n) = some (n : Int) := by
  rw [pyIntParse_digits _ (decDigits_ne_nil n) (decDigits_digit n), parseUnsigned_decDigits]
  rfl

/-- Python int() applied to the rendering of a negative value. -/
theorem pyIntParse_neg (n : Nat) : pyIntParse (45 :: decDigits n) = some (-(n : Int)) := by
  have hd := decDigits_digit n
  have hstrip : stripSpaces (45 :: decDigits n) = 45 :: decDigits n := by
    apply stripSpaces_of_none
    intro x hx
    rcases List.mem_cons.mp hx with h | h
    · simp [h, isSpaceByte]
    · exact digit_not_space x (hd x h)
  rw [pyIntParse, hstrip]
  simp only [if_neg (show ¬(45 : Nat) = 43 by omega), if_pos rfl, parseUnsigned_decDigits]
  rfl

/-- Bytes of a decimal rendering are below 256. -/
theorem pyStr_lt256 (x : Int) : ∀ b ∈ pyStr x, b < 256 := by
  intro b hb
  unfold pyStr at hb
  split at hb
  · rcases List.mem_cons.mp hb with h | h
    · omega
    · have := decDigits_digit x.natAbs b h
      omega
  · have := decDigits_digit x.natAbs b hb
    omega

/-- Round trip of the identity codec at byte level: shared by several
claims below. -/
theorem decode_encode (x : Int) : decode_user_id (encode_user_id x) = some x := by
  have hdata : (encode_user_id x).data = b64EncChunks (pyStr x) := rfl
  rw [decode_user_id, hdata, urlsafeB64decode, a2bLoop_encChunks _ (pyStr_lt256 x)]
  unfold pyStr
  split
  · rename_i hneg
    rw [Option.bind, pyIntParse_neg]
    congr 1
    omega
  · rename_i hpos
    rw [Option.bind, pyIntParse_decDigits]
    congr 1
    omega


/-- Alphabet characters are URL safe. -/
theorem b64chr_urlsafe : ∀ v : Nat, v < 64 → isUrlSafeChar (b64chr v) = true := by decide

/-- Every character an encoder chunk emits is alphabet or pad. -/
theorem b64EncChunks_allchars (bs : List Nat) (h : ∀ b ∈ bs, b < 256) :
    ∀ c ∈ b64EncChunks bs, (isUrlSafeChar c || c = '=') = true := by
  induction bs using b64EncChunks.induct with
  | case1 => intro c hc; simp [b64EncChunks] at hc
  | case2 b0 =>
    have hb0 : b0 < 256 := h b0 (by simp)
    intro c hc
    simp only [b64EncChunks, List.mem_cons, List.not_mem_nil, or_false] at hc
    rcases hc with h1 | h1 | h1 | h1 <;> subst h1 <;>
      simp [b64chr_urlsafe _ (by omega : b0 / 4 < 64),
        b64chr_urlsafe _ (by omega : b0 % 4 * 16 < 64)]
  | case3 b0 b1 =>
    have hb0 : b0 < 256 := h b0 (by simp)
    have hb1 : b1 < 256 := h b1 (by simp)
    intro c hc
    simp only [b64EncChunks, List.mem_cons, List.not_mem_nil, or_false] at hc
    rcases hc with h1 | h1 | h1 | h1 <;> subst h1 <;>
      simp [b64chr_urlsafe _ (by omega : b0 / 4 < 64),
        b64chr_urlsafe _ (by omega : b0 % 4 * 16 + b1 / 16 < 64),
        b64chr_urlsafe _ (by omega : b1 % 16 * 4 < 64)]
  | case4 b0 b1 b2 rest ih =>
    have hb0 : b0 < 256 := h b0 (by simp)
    have hb1 : b1 < 256 := h b1 (by simp)
    have hb2 : b2 < 256 := h b2 (by simp)
    have ih' := ih (fun b hb => h b (by simp [hb]))
    intro c hc
    simp only [b64EncChunks, List.mem_cons] at hc
    rcases hc with h1 | h1 | h1 | h1 | h1
    · subst h1; simp [b64chr_urlsafe _ (by omega : b0 / 4 < 64)]
    · subst h1; simp [b64chr_urlsafe _ (by omega : b0 % 4 * 16 + b1 / 16 < 64)]
    · subst h1; simp [b64chr_urlsafe _ (by omega : b1 % 16 * 4 + b2 / 64 < 64)]
    · subst h1; simp [b64chr_urlsafe _ (by omega : b2 % 64 < 64)]
    · exact ih' c h1

/-- A pad appears in the encoding exactly when the byte count is not a
multiple of three. -/
theorem b64EncChunks_pad_mem (bs : List Nat) (h : ∀ b ∈ bs, b < 256) :
    '=' ∈ b64EncChunks bs ↔ bs.length % 3 ≠ 0 := by
  induction bs using b64EncChunks.induct with
  | case1 => simp [b64EncChunks]
  | case2 b0 => simp [b64EncChunks]
  | case3 b0 b1 => simp [b64EncChunks]
  | case4 b0 b1 b2 rest ih =>
    have hb0 : b0 < 256 := h b0 (by simp)
    have hb1 : b1 < 256 := h b1 (by simp)
    have hb2 : b2 < 256 := h b2 (by simp)
    have ih' := ih (fun b hb => h b (by simp [hb]))
    have n1 := b64chr_ne_pad _ (by omega : b0 / 4 < 64)
    have n2 := b64chr_ne_pad _ (by omega : b0 % 4 * 16 + b1 / 16 < 64)
    have n3 := b64chr_ne_pad _ (by omega : b1 % 16 * 4 + b2 / 64 < 64)
    have n4 := b64chr_ne_pad _ (by omega : b2 % 64 < 64)
    simp only [b64EncChunks, List.mem_cons, List.length_cons]
    rw [ih']
    constructor
    · rintro (h1 | h1 | h1 | h1 | h1)
      · exact absurd h1.symm n1
      · exact absurd h1.symm n2
      · exact absurd h1.symm n3
      · exact absurd h1.symm n4
      · omega
    · intro hlen
      right; right; right; right
      omega

/-- The scan skips every character outside the table that is not a pad. -/
theorem a2bLoop_skips (cs : List Char) (h : ∀ c ∈ cs, b64val c = none ∧ c ≠ '=') :
    ∀ q left pads, a2bLoop cs q left pads = a2bLoop [] q left pads := by
  induction cs with
  | nil => intro q left pads; rfl
  | cons c rest ih =>
    intro q left pads
    obtain ⟨hval, hpad⟩ := h c (by simp)
    have step : a2bLoop (c :: rest) q left pads = a2bLoop rest q left pads := by
      simp only [a2bLoop, hval, hpad, ite_false, if_false, reduceIte]
    rw [step]
    exact ih (fun x hx => h x (by simp [hx])) q left pads

/-!
Part 3: the claims.
-/

/-- C1: for every identity, decoding the encoded token returns the
original identity: `decode_user_id (encode_user_id x) = x`. -/
theorem C1_codec_roundtrip (user_id : Int) :
    decode_user_id (encode_user_id user_id) = some user_id :=
  decode_encode user_id

/-- C2, counterexample: the token `MDQy` (base64 of the string `042`) is
produced by `encode_user_id` for no identity, yet `decode_user_id`
returns the identity 42 on it rather than the undecodable result. -/
theorem C2_counterexample :
    decode_user_id "MDQy" = some 42 ∧ ∀ x : Int, encode_user_id x ≠ "MDQy" := by
  constructor
  · decide
  · intro x h
    have hr := decode_encode x
    rw [h] at hr
    have h42 : decode_user_id "MDQy" = some 42 := by decide
    rw [h42] at hr
    obtain rfl : (42 : Int) = x := Option.some.inj hr
    rw [show encode_user_id 42 = "NDI=" from by decide] at h
    exact absurd h (by decide)

/-- C2, amended: `decode_user_id` never raises — every failure is the
explicit `none`, as on any string whose characters are all outside the
base64 alphabet — and on every string that `encode_user_id` produced it
returns exactly the originating identity; but it does not reject every
string outside the image of `encode_user_id`: non-canonical tokens can
decode to an identity. -/
theorem C2_decode_on_image (s : String) (y : Int) :
    (s = encode_user_id y → decode_user_id s = some y)
    ∧ ((∀ c ∈ s.data, b64val c = none ∧ c ≠ '=') → decode_user_id s = none) := by
  constructor
  · intro h
    rw [h]
    exact decode_encode y
  · intro h
    rw [decode_user_id, urlsafeB64decode, a2bLoop_skips s.data h]
    rfl

/-- C2, witness for the amended theorem: the token of identity 42
decodes to 42, and a token of only non-alphabet characters decodes to
the explicit undecodable result. -/
theorem C2_decode_on_image_witness :
    decode_user_id "NDI=" = some 42 ∧ decode_user_id "!!!" = none :=
  ⟨(C2_decode_on_image "NDI=" 42).1 (by decide),
   (C2_decode_on_image "!!!" 42).2 (by decide)⟩

/-- C3: with users 1 and 2 registered and 2 blocking 1, a text relay from
1 to 2 inside an already-open anonymous session still records the message
and delivers it — `handle_message` never consults the block relation, so
the claim that every relay attempt checks `isBlocked(recipient, sender)`
fails on this path. -/
theorem C3_block_not_consulted :
    is_blocked (Db.mk [1, 2] [(2, 1)] [] [] []) 2 1 = true ∧
    handle_message (Db.mk [1, 2] [(2, 1)] [] [] []) ⟨true, some 2, none⟩ 1 "hi" 0 false true =
      (Db.mk [1, 2] [(2, 1)] [] [] [Msg.mk 1 2 "hi" .text 0], Session.idle,
       [.toRecipient 2 "hi" .text, .toSender .messageSent]) := by
  decide

/-- C4, counterexample: a decoded target that is simultaneously unknown
and has blocked the sender is denied with the blocked reply, not the
recipient-unknown reply: the block check precedes the existence check in
`start`. -/
theorem C4_counterexample :
    user_exists (add_user (Db.mk [] [(2, 1)] [] [] []) 1) 2 = false ∧
    start (Db.mk [] [(2, 1)] [] [] []) ⟨false, none, none⟩ 1 (some "Mg==") =
      (Db.mk [1] [(2, 1)] [] [] [], ⟨false, none, none⟩,
       [.toSender .cannotSendBlocked]) ∧
    Reply.cannotSendBlocked ≠ Reply.userNotActive := by
  decide

/-- C4, amended: at link-open the checks run in the fixed order
admin-block-of-sender, token decode, recipient-block-of-sender,
recipient-existence, short-circuiting on the first failure; the rate
quota is not part of this chain (it is checked at message time), so a
target that is simultaneously unknown and rate-limiting the sender gets
the recipient-unknown reply, while a target that is simultaneously
unknown and blocking the sender gets the blocked reply. -/
theorem C4_policy_order (db : Db) (session : Session) (s t : Int) (tok : String) (now : Nat) :
    (is_user_blocked_by_admin db s = true →
      start db session s (some tok) = (db, session, [.toSender .accountBlocked]))
    ∧ (is_user_blocked_by_admin db s = false → decode_user_id tok = some t →
      is_blocked (add_user db s) t s = true →
      start db session s (some tok) = (add_user db s, session, [.toSender .cannotSendBlocked]))
    ∧ (is_user_blocked_by_admin db s = false → decode_user_id tok = some t →
      is_blocked (add_user db s) t s = false → user_exists (add_user db s) t = false →
      MAX_MESSAGES_PER_HOUR ≤ get_rate_limit_count db s now 1 →
      start db session s (some tok) = (add_user db s, session, [.toSender .userNotActive]))
    ∧ (is_user_blocked_by_admin db s = false → decode_user_id tok = some t →
      is_blocked (add_user db s) t s = false → user_exists (add_user db s) t = true →
      start db session s (some tok) =
        (add_user db s, { session with is_anonymous := true, target_user_id := some t },
         [.toSender .promptMessage])) := by
  refine ⟨?_, ?_, ?_, ?_⟩
  · intro h1
    simp [start, h1]
  · intro h1 h2 h3
    simp [start, h1, h2, h3]
  · intro h1 h2 h3 h4 h5
    simp [start, h1, h2, h3, h4]
  · intro h1 h2 h3 h4
    simp [start, h1, h2, h3, h4]

/-- C4, witness: an unknown target with the sender already over quota is
answered with the recipient-unknown reply. -/
theorem C4_policy_order_witness :
    start (Db.mk [] [] [] [] (List.replicate 10 (Msg.mk 1 2 "x" .text 0)))
        ⟨false, none, none⟩ 1 (some "Mg==") =
      (add_user (Db.mk [] [] [] [] (List.replicate 10 (Msg.mk 1 2 "x" .text 0))) 1,
       ⟨false, none, none⟩, [.toSender .userNotActive]) :=
  (C4_policy_order (Db.mk [] [] [] [] (List.replicate 10 (Msg.mk 1 2 "x" .text 0)))
      ⟨false, none, none⟩ 1 2 "Mg==" 0).2.2.1
    (by decide) (by decide) (by decide) (by decide) (by decide)

/-- C5: with spam protection on, a sender whose trailing-hour relay count
equals `MAX_MESSAGES_PER_HOUR` is denied with the rate-limited reply —
the store is unchanged (no record) and nothing is sent to the target —
and once the hour has passed over every earlier message, the same
sender's next attempt records and delivers. -/
theorem C5_rate_limit (db : Db) (S t : Int) (text : String) (now now2 : Nat)
    (dbError deliverOk : Bool)
    (hadmin : is_user_blocked_by_admin db S = false)
    (ht : t ≠ 0)
    (hcount : get_rate_limit_count db S now 1 = MAX_MESSAGES_PER_HOUR)
    (helapsed : ∀ m ∈ db.messages, m.from_user = S → m.ts + 3600 < now2) :
    handle_message db ⟨true, some t, none⟩ S text now dbError deliverOk =
      (db, Session.idle, [.toSender .rateLimited])
    ∧ handle_message db ⟨true, some t, none⟩ S text now2 false true =
      (add_message db S t text .text now2 false, Session.idle,
       [.toRecipient t text .text, .toSender .messageSent]) := by
  have htt : truthyId (some t) = some t := by simp [truthyId, ht]
  constructor
  · simp [handle_message, hadmin, htt, ENABLE_SPAM_PROTECTION, hcount]
  · have hzero : get_rate_limit_count db S now2 1 = 0 := by
      unfold get_rate_limit_count
      rw [List.length_eq_zero, List.filter_eq_nil_iff]
      intro m hm
      simp only [Bool.and_eq_true, decide_eq_true_eq, not_and]
      intro hfrom
      have := helapsed m hm hfrom
      omega
    simp [handle_message, hadmin, htt, ENABLE_SPAM_PROTECTION, hzero,
      MAX_MESSAGES_PER_HOUR]

/-- C5, witness: ten messages in the window deny the eleventh, and an
attempt after the window succeeds. -/
theorem C5_rate_limit_witness :
    handle_message (Db.mk [1, 2] [] [] [] (List.replicate 10 (Msg.mk 1 2 "x" .text 0)))
        ⟨true, some 2, none⟩ 1 "hello" 100 false true =
      (Db.mk [1, 2] [] [] [] (List.replicate 10 (Msg.mk 1 2 "x" .text 0)), Session.idle,
       [.toSender .rateLimited])
    ∧ handle_message (Db.mk [1, 2] [] [] [] (List.replicate 10 (Msg.mk 1 2 "x" .text 0)))
        ⟨true, some 2, none⟩ 1 "hello" 5000 false true =
      (add_message (Db.mk [1, 2] [] [] [] (List.replicate 10 (Msg.mk 1 2 "x" .text 0)))
          1 2 "hello" .text 5000 false, Session.idle,
       [.toRecipient 2 "hello" .text, .toSender .messageSent]) :=
  C5_rate_limit (Db.mk [1, 2] [] [] [] (List.replicate 10 (Msg.mk 1 2 "x" .text 0)))
    1 2 "hello" 100 5000 false true (by decide) (by decide) (by decide) (by decide)

/-- C6: when the sqlite write inside `add_message` raises (dbError), the
transaction is rolled back and the exception swallowed, and
`handle_message` still delivers to the recipient and confirms to the
sender — the attempt is not aborted, so the no-partial-side-effects
claim fails on the code: delivery happens with no durable record. -/
theorem C6_persistence_failure_still_delivers :
    handle_message (Db.mk [1, 2] [] [] [] []) ⟨true, some 2, none⟩ 1 "hi" 0 true true =
      (Db.mk [1, 2] [] [] [] [], Session.idle,
       [.toRecipient 2 "hi" .text, .toSender .messageSent]) := by
  decide

/-- C7: no stop directive exists.  The text `stop` sent from a non-Idle
(anonymous) session is relayed to the target as an ordinary anonymous
message rather than acknowledged, and `/start` without arguments — the
only other plausible directive — leaves the non-Idle session untouched. -/
theorem C7_no_stop_directive :
    handle_message (Db.mk [1, 2] [] [] [] []) ⟨true, some 2, none⟩ 1 "stop" 0 false true =
      (Db.mk [1, 2] [] [] [] [Msg.mk 1 2 "stop" .text 0], Session.idle,
       [.toRecipient 2 "stop" .text, .toSender .messageSent])
    ∧ start (Db.mk [1, 2] [] [] [] []) ⟨true, some 2, none⟩ 1 none =
      (Db.mk [1, 2] [] [] [] [], ⟨true, some 2, none⟩, [.toSender .welcomeLink]) := by
  decide

/-- C8, counterexample: the token of identity 42 is `NDI=`, which
contains the padding character `=`, so the claim that no token contains
padding fails. -/
theorem C8_counterexample :
    encode_user_id 42 = "NDI=" ∧ ((encode_user_id 42).data.contains '=') = true := by
  decide

/-- C8, amended: every character of a token is in the urlsafe base64
alphabet or is the pad `=`, and the pad occurs exactly when the decimal
rendering's length is not a multiple of three (so only those tokens
survive strict URL transport undecorated). -/
theorem C8_token_alphabet (x : Int) :
    ((encode_user_id x).data.all (fun c => isUrlSafeChar c || c = '=')) = true
    ∧ ('=' ∈ (encode_user_id x).data ↔ (pyStr x).length % 3 ≠ 0) := by
  have hdata : (encode_user_id x).data = b64EncChunks (pyStr x) := rfl
  rw [hdata]
  constructor
  · rw [List.all_eq_true]
    exact b64EncChunks_allchars (pyStr x) (pyStr_lt256 x)
  · exact b64EncChunks_pad_mem (pyStr x) (pyStr_lt256 x)

/-- C9: every terminating outcome of a text relay attempt — success,
delivery failure or rate-limit denial, in anonymous mode and in reply
mode alike — clears the whole session (`user_data.clear()`), the
single-shot policy. -/
theorem C9_single_shot (db : Db) (session : Session) (S t : Int) (text : String)
    (now : Nat) (dbError deliverOk : Bool)
    (hadmin : is_user_blocked_by_admin db S = false)
    (hmode : (session.is_anonymous = true ∧ truthyId session.target_user_id = some t)
      ∨ (session.is_anonymous = false ∧ truthyId session.replying_to = some t)) :
    (handle_message db session S text now dbError deliverOk).2.1 = Session.idle := by
  rcases hmode with ⟨h1, h2⟩ | ⟨h1, h2⟩ <;>
  · simp only [handle_message, hadmin, Bool.false_eq_true, if_false, h1, if_true, h2]
    by_cases hrate :
        (ENABLE_SPAM_PROTECTION &&
          decide (MAX_MESSAGES_PER_HOUR ≤ get_rate_limit_count db S now 1)) = true <;>
      cases deliverOk <;>
      simp [hrate]

/-- C9, witness: a successful anonymous relay ends with the session
cleared. -/
theorem C9_single_shot_witness :
    (handle_message (Db.mk [1, 2] [] [] [] []) ⟨true, some 2, none⟩ 1 "hi" 0 false true).2.1 =
      Session.idle :=
  C9_single_shot (Db.mk [1, 2] [] [] [] []) ⟨true, some 2, none⟩ 1 2 "hi" 0 false true
    (by decide) (Or.inl (by decide))

/-- C10: the photo relay path has no rate-limit check: a sender in
anonymous mode at or over `MAX_MESSAGES_PER_HOUR` still gets the photo
recorded and delivered, `handle_photo` consulting only the media feature
flag and the target's `allow_media` setting. -/
theorem C10_photo_no_rate_check (db : Db) (session : Session) (S t : Int)
    (caption : String) (now : Nat)
    (hanon : session.is_anonymous = true)
    (ht : truthyId session.target_user_id = some t)
    (hmedia : allow_media db t = true)
    (hrate : MAX_MESSAGES_PER_HOUR ≤ get_rate_limit_count db S now 1) :
    handle_photo db session S caption now false true =
      (add_message db S t ("[Photo] " ++ caption) .photo now false, Session.idle,
       [.toRecipient t caption .photo, .toSender .photoSent]) := by
  simp only [handle_photo, ENABLE_MEDIA_MESSAGES, Bool.not_true, Bool.false_eq_true,
    if_false, hanon, if_true]
  rw [ht]
  simp [hmedia]

/-- C10, witness: a sender with ten messages already in the window still
relays a photo. -/
theorem C10_photo_no_rate_check_witness :
    handle_photo (Db.mk [1, 2] [] [] [] (List.replicate 10 (Msg.mk 1 2 "x" .text 0)))
        ⟨true, some 2, none⟩ 1 "pic" 100 false true =
      (add_message (Db.mk [1, 2] [] [] [] (List.replicate 10 (Msg.mk 1 2 "x" .text 0)))
          1 2 ("[Photo] " ++ "pic") .photo 100 false, Session.idle,
       [.toRecipient 2 "pic" .photo, .toSender .photoSent]) :=
  C10_photo_no_rate_check (Db.mk [1, 2] [] [] [] (List.replicate 10 (Msg.mk 1 2 "x" .text 0)))
    ⟨true, some 2, none⟩ 1 2 "pic" 100 (by decide) (by decide) (by decide) (by decide)

end AnonBot
